import Mathlib

/-!
Verification of the UHF RFID reader core, shallowly embedded from the
Python sources in src/: the frame codec and tag parser
(src/utils/serial_utils.py, class ReaderProtocol), the frame reassembler
(src/controllers/reader_controller.py), and the inventory store, sensor
correlator and confidence scoring (src/models/reader_model.py and
src/models/data_models.py).

Bytes are modelled as natural numbers; a Python bytes object is a
List Nat whose elements are at most 255 (constructing one from an
out-of-range element raises, which is modelled by Except).  Python
floats are modelled by rationals.  Python exceptions are modelled by
Except / error components; mutations that a method performs before it
raises are kept in the returned state, as in Python.
-/

namespace SecurityGate

/-- Embeds ReaderProtocol.calculate_checksum: the two's complement of the
8-bit sum.  For total = sum % 256 in [0, 255] the Python expression
(~total + 1) & 0xFF equals (256 - total) % 256. -/
def calculate_checksum (data : List Nat) : Nat :=
  (256 - data.sum % 256) % 256

/-- Result of ReaderProtocol.parse_response on a valid frame. -/
structure ParsedResponse where
  reader_id : Nat
  cmd : Nat
  data : List Nat
deriving Repr, DecidableEq

/-- Embeds ReaderProtocol.create_frame.  The Error case models Python
bytes() raising ValueError when the length byte or any content byte
exceeds 255. -/
def create_frame (reader_id cmd : Nat) (data : List Nat) :
    Except String (List Nat) :=
  let length := data.length + 3
  if 255 < length || 255 < reader_id || 255 < cmd ||
      !(data.all fun b => b ≤ 255) then
    .error "ValueError: bytes must be in range 0..255"
  else
    let frame_without_checksum := [0xA0, length, reader_id, cmd] ++ data
    let checksum := calculate_checksum frame_without_checksum
    .ok (frame_without_checksum ++ [checksum])

/-- Embeds ReaderProtocol.parse_response: requires at least 5 bytes,
header 0xA0, and a matching two's-complement checksum; extracts
reader id (byte 2), command (byte 3) and the payload slice data[4:-1]
(taken to be empty unless the frame is longer than 5 bytes, as in the
source). -/
def parse_response (data : List Nat) : Except String ParsedResponse :=
  if data.length < 5 then .error "Frame too short"
  else if data.headD 0 ≠ 0xA0 then .error "Invalid header"
  else
    let payload := if 5 < data.length then (data.drop 4).dropLast else []
    let received_checksum := data.getLastD 0
    let calc_checksum := calculate_checksum data.dropLast
    if calc_checksum ≠ received_checksum then .error "Checksum mismatch"
    else .ok ⟨data.getD 2 0, data.getD 3 0, payload⟩

/-- Shared roundtrip lemma: create_frame succeeds on valid inputs and
parse_response inverts it. -/
theorem create_frame_roundtrip (id cmd : Nat) (data : List Nat)
    (h1 : id ≤ 255) (h2 : cmd ≤ 255) (h3 : data.length ≤ 252)
    (h4 : ∀ b ∈ data, b ≤ 255) :
    ∃ frame, create_frame id cmd data = .ok frame ∧
      parse_response frame = .ok ⟨id, cmd, data⟩ := by
  have hall : (data.all fun b => b ≤ 255) = true := by
    rw [List.all_eq_true]
    intro b hb
    simpa using h4 b hb
  have hguard : (255 < data.length + 3 || 255 < id || 255 < cmd ||
      !(data.all fun b => b ≤ 255)) = false := by
    simp [hall]
    omega
  refine ⟨([0xA0, data.length + 3, id, cmd] ++ data) ++
      [calculate_checksum ([0xA0, data.length + 3, id, cmd] ++ data)],
      ?_, ?_⟩
  · simp only [create_frame, hguard, Bool.false_eq_true, if_false]
  · set ck := calculate_checksum ([0xA0, data.length + 3, id, cmd] ++ data)
      with hck
    have hframe : ([0xA0, data.length + 3, id, cmd] ++ data) ++ [ck] =
        0xA0 :: (data.length + 3) :: id :: cmd :: (data ++ [ck]) := by
      simp
    unfold parse_response
    rw [hframe]
    have hlen : (0xA0 :: (data.length + 3) :: id :: cmd ::
        (data ++ [ck])).length = data.length + 5 := by
      simp
    rw [if_neg (by omega)]
    rw [if_neg (by simp)]
    have hdropLast : (0xA0 :: (data.length + 3) :: id :: cmd ::
        (data ++ [ck])).dropLast =
        0xA0 :: (data.length + 3) :: id :: cmd :: data := by
      have h0 : (0xA0 :: (data.length + 3) :: id :: cmd ::
          (data ++ [ck])) = ((0xA0 :: (data.length + 3) :: id :: cmd ::
          data) ++ [ck]) := by simp
      rw [h0, List.dropLast_concat]
    have hlast : (0xA0 :: (data.length + 3) :: id :: cmd ::
        (data ++ [ck])).getLastD 0 = ck := by
      have h0 : (0xA0 :: (data.length + 3) :: id :: cmd ::
          (data ++ [ck])) = ((0xA0 :: (data.length + 3) :: id :: cmd ::
          data) ++ [ck]) := by simp
      rw [h0, List.getLastD_concat]
    have hchk : calculate_checksum ((0xA0 :: (data.length + 3) :: id ::
        cmd :: (data ++ [ck])).dropLast) = ck := by
      rw [hdropLast, hck]
      rfl
    rw [if_neg (by rw [hlast, hchk]; simp)]
    have hpayload : (if 5 < (0xA0 :: (data.length + 3) :: id :: cmd ::
        (data ++ [ck])).length then
          ((0xA0 :: (data.length + 3) :: id :: cmd ::
            (data ++ [ck])).drop 4).dropLast
        else []) = data := by
      rcases data with _ | ⟨a, rest⟩
      · simp
      · rw [if_pos (by simp only [List.length_cons, List.length_append,
            List.length_singleton]; omega)]
        simp only [List.drop_succ_cons, List.drop_zero]
        exact List.dropLast_concat ..
    rw [hpayload]
    rfl

/-- C1: for every reader id and command in [0,255] and every byte payload
of length at most 252, create_frame succeeds and parse_response decodes
the produced frame back to exactly the same reader id, command and
payload. -/
theorem c1_encode_decode_roundtrip (id cmd : Nat) (data : List Nat)
    (h1 : id ≤ 255) (h2 : cmd ≤ 255) (h3 : data.length ≤ 252)
    (h4 : ∀ b ∈ data, b ≤ 255) :
    ∃ frame, create_frame id cmd data = .ok frame ∧
      parse_response frame = .ok ⟨id, cmd, data⟩ :=
  create_frame_roundtrip id cmd data h1 h2 h3 h4

/-- Witness for C1 at the spec's own example frame: reader id 0xFF,
command 0x76 (set power), payload the single byte 25. -/
theorem c1_encode_decode_roundtrip_witness :
    ∃ frame, create_frame 0xFF 0x76 [25] = .ok frame ∧
      parse_response frame = .ok ⟨0xFF, 0x76, [25]⟩ :=
  c1_encode_decode_roundtrip 0xFF 0x76 [25] (by decide) (by decide)
    (by decide) (by decide)

/-! ## Frame reassembler (ReaderController._process_buffer) -/

/-- Fuel-indexed loop body of ReaderController._process_buffer.  Each
iteration: while the buffer holds at least 5 bytes, drop one byte if the
head is not the 0xA0 marker; otherwise read the length byte, wait if the
buffer is shorter than length + 2, else slice out exactly length + 2
bytes as one frame and continue.  Returns the extracted frames in order
together with the remaining buffer.  The loop runs at most buffer-length
iterations, so the fuel never runs out when it starts at the buffer
length. -/
def process_buffer_go : Nat → List Nat → List (List Nat) × List Nat
  | 0, buf => ([], buf)
  | fuel + 1, buf =>
    if buf.length < 5 then ([], buf)
    else if buf.headD 0 ≠ 0xA0 then process_buffer_go fuel buf.tail
    else
      let frame_len := buf.getD 1 0
      if buf.length < frame_len + 2 then ([], buf)
      else
        let r := process_buffer_go fuel (buf.drop (frame_len + 2))
        (buf.take (frame_len + 2) :: r.1, r.2)

/-- Embeds ReaderController._process_buffer, acting on a buffer and
returning the ordered list of extracted frames plus the leftover
buffer. -/
def process_buffer (buf : List Nat) : List (List Nat) × List Nat :=
  process_buffer_go buf.length buf

/-- More fuel than the buffer length changes nothing. -/
theorem process_buffer_go_fuel (fuel : Nat) :
    ∀ buf : List Nat, buf.length ≤ fuel →
      process_buffer_go (fuel + 1) buf = process_buffer_go fuel buf := by
  induction fuel with
  | zero =>
    intro buf hlen
    have hnil : buf = [] := List.length_eq_zero.mp (Nat.le_zero.mp hlen)
    subst hnil
    rfl
  | succ f ih =>
    intro buf hlen
    show (if buf.length < 5 then ([], buf)
        else if buf.headD 0 ≠ 0xA0 then process_buffer_go (f + 1) buf.tail
        else
          let frame_len := buf.getD 1 0
          if buf.length < frame_len + 2 then ([], buf)
          else
            let r := process_buffer_go (f + 1) (buf.drop (frame_len + 2))
            (buf.take (frame_len + 2) :: r.1, r.2)) =
      (if buf.length < 5 then ([], buf)
        else if buf.headD 0 ≠ 0xA0 then process_buffer_go f buf.tail
        else
          let frame_len := buf.getD 1 0
          if buf.length < frame_len + 2 then ([], buf)
          else
            let r := process_buffer_go f (buf.drop (frame_len + 2))
            (buf.take (frame_len + 2) :: r.1, r.2))
    by_cases h5 : buf.length < 5
    · rw [if_pos h5, if_pos h5]
    · rw [if_neg h5, if_neg h5]
      by_cases hhead : buf.headD 0 ≠ 0xA0
      · rw [if_pos hhead, if_pos hhead]
        exact ih buf.tail (by
          rw [List.length_tail]
          omega)
      · rw [if_neg hhead, if_neg hhead]
        simp only
        by_cases hshort : buf.length < buf.getD 1 0 + 2
        · rw [if_pos hshort, if_pos hshort]
        · rw [if_neg hshort, if_neg hshort]
          have hdrop : (buf.drop (buf.getD 1 0 + 2)).length ≤ f := by
            rw [List.length_drop]
            omega
          rw [ih _ hdrop]

/-- Fuel monotonicity: any fuel at least the buffer length gives the
same result as fuel exactly the buffer length. -/
theorem process_buffer_go_eq (fuel : Nat) :
    ∀ buf : List Nat, buf.length ≤ fuel →
      process_buffer_go fuel buf = process_buffer buf := by
  induction fuel with
  | zero =>
    intro buf hlen
    have hnil : buf = [] := List.length_eq_zero.mp (Nat.le_zero.mp hlen)
    subst hnil
    rfl
  | succ f ih =>
    intro buf hlen
    rcases Nat.lt_or_ge buf.length (f + 1) with hlt | hge
    · rw [process_buffer_go_fuel f buf (by omega), ih buf (by omega)]
    · have : buf.length = f + 1 := by omega
      rw [process_buffer, this]

/-- One-step unfolding of process_buffer in terms of itself. -/
theorem process_buffer_eq (buf : List Nat) :
    process_buffer buf =
      (if buf.length < 5 then ([], buf)
        else if buf.headD 0 ≠ 0xA0 then process_buffer buf.tail
        else
          let frame_len := buf.getD 1 0
          if buf.length < frame_len + 2 then ([], buf)
          else
            let r := process_buffer (buf.drop (frame_len + 2))
            (buf.take (frame_len + 2) :: r.1, r.2)) := by
  have h1 : process_buffer buf = process_buffer_go (buf.length + 1) buf :=
    (process_buffer_go_fuel buf.length buf (le_refl _)).symm
  rw [h1]
  show (if buf.length < 5 then ([], buf)
      else if buf.headD 0 ≠ 0xA0 then
        process_buffer_go buf.length buf.tail
      else
        let frame_len := buf.getD 1 0
        if buf.length < frame_len + 2 then ([], buf)
        else
          let r := process_buffer_go buf.length (buf.drop (frame_len + 2))
          (buf.take (frame_len + 2) :: r.1, r.2)) = _
  by_cases h5 : buf.length < 5
  · rw [if_pos h5, if_pos h5]
  · rw [if_neg h5, if_neg h5]
    by_cases hhead : buf.headD 0 ≠ 0xA0
    · rw [if_pos hhead, if_pos hhead,
        process_buffer_go_eq buf.length buf.tail
          (by rw [List.length_tail]; omega)]
    · rw [if_neg hhead, if_neg hhead]
      simp only
      by_cases hshort : buf.length < buf.getD 1 0 + 2
      · rw [if_pos hshort, if_pos hshort]
      · rw [if_neg hshort, if_neg hshort,
          process_buffer_go_eq buf.length _
            (by rw [List.length_drop]; omega)]

/-- Head of an append is the head of a nonempty left part. -/
theorem headD_append_left {α : Type} (l m : List α) (d : α) (h : l ≠ []) :
    (l ++ m).headD d = l.headD d := by
  cases l with
  | nil => exact absurd rfl h
  | cons a t => rfl

/-- Tail of an append is the tail of a nonempty left part, appended. -/
theorem tail_append_left {α : Type} (l m : List α) (h : l ≠ []) :
    (l ++ m).tail = l.tail ++ m := by
  cases l with
  | nil => exact absurd rfl h
  | cons a t => rfl

/-- Processing a buffer extended by later bytes equals processing the
buffer first and then processing its leftover together with the later
bytes: the loop keeps no state beyond the buffer. -/
theorem process_buffer_append (more : List Nat) :
    ∀ buf : List Nat,
      process_buffer (buf ++ more) =
        ((process_buffer buf).1 ++
            (process_buffer ((process_buffer buf).2 ++ more)).1,
          (process_buffer ((process_buffer buf).2 ++ more)).2) := by
  suffices h : ∀ (n : Nat) (buf : List Nat), buf.length ≤ n →
      process_buffer (buf ++ more) =
        ((process_buffer buf).1 ++
            (process_buffer ((process_buffer buf).2 ++ more)).1,
          (process_buffer ((process_buffer buf).2 ++ more)).2) by
    exact fun buf => h buf.length buf (le_refl _)
  intro n
  induction n with
  | zero =>
    intro buf hlen
    have hnil : buf = [] := List.length_eq_zero.mp (Nat.le_zero.mp hlen)
    subst hnil
    have h0 : process_buffer ([] : List Nat) = ([], []) := rfl
    rw [List.nil_append, h0]
    simp
  | succ n ih =>
    intro buf hlen
    by_cases h5 : buf.length < 5
    · conv_rhs => rw [process_buffer_eq buf]
      rw [if_pos h5]
      simp
    · have hne : buf ≠ [] := by
        intro hb
        rw [hb] at h5
        exact h5 (by simp)
      by_cases hhead : buf.headD 0 ≠ 0xA0
      · have hL : process_buffer (buf ++ more) =
            process_buffer (buf.tail ++ more) := by
          rw [process_buffer_eq (buf ++ more),
            if_neg (by rw [List.length_append]; omega),
            if_pos (by rw [headD_append_left buf more 0 hne]; exact hhead),
            tail_append_left buf more hne]
        have hR : process_buffer buf = process_buffer buf.tail := by
          rw [process_buffer_eq buf, if_neg h5, if_pos hhead]
        rw [hL, hR]
        exact ih buf.tail (by rw [List.length_tail]; omega)
      · by_cases hshort : buf.length < buf.getD 1 0 + 2
        · conv_rhs => rw [process_buffer_eq buf]
          rw [if_neg h5, if_neg hhead]
          simp only
          rw [if_pos hshort]
          simp
        · have hgetD : (buf ++ more).getD 1 0 = buf.getD 1 0 :=
            List.getD_append _ _ _ _ (by omega)
          have htake : (buf ++ more).take (buf.getD 1 0 + 2) =
              buf.take (buf.getD 1 0 + 2) :=
            List.take_append_of_le_length (by omega)
          have hdrop : (buf ++ more).drop (buf.getD 1 0 + 2) =
              buf.drop (buf.getD 1 0 + 2) ++ more :=
            List.drop_append_of_le_length (by omega)
          have hL : process_buffer (buf ++ more) =
              (buf.take (buf.getD 1 0 + 2) ::
                  (process_buffer (buf.drop (buf.getD 1 0 + 2) ++ more)).1,
                (process_buffer (buf.drop (buf.getD 1 0 + 2) ++ more)).2) := by
            rw [process_buffer_eq (buf ++ more),
              if_neg (by rw [List.length_append]; omega),
              if_neg (by rw [headD_append_left buf more 0 hne]; exact hhead)]
            simp only
            rw [hgetD, if_neg (by rw [List.length_append]; omega), htake,
              hdrop]
          have hR : process_buffer buf =
              (buf.take (buf.getD 1 0 + 2) ::
                  (process_buffer (buf.drop (buf.getD 1 0 + 2))).1,
                (process_buffer (buf.drop (buf.getD 1 0 + 2))).2) := by
            rw [process_buffer_eq buf, if_neg h5, if_neg hhead]
            simp only
            rw [if_neg hshort]
          rw [hL, hR,
            ih (buf.drop (buf.getD 1 0 + 2)) (by rw [List.length_drop]; omega)]
          simp

/-- Embeds ReaderController._on_data_received: one received chunk is
appended to the retained buffer and the buffer is reprocessed; the state
carried across chunks is the frames dispatched so far plus the leftover
buffer. -/
def feed_chunk (st : List (List Nat) × List Nat) (chunk : List Nat) :
    List (List Nat) × List Nat :=
  let r := process_buffer (st.2 ++ chunk)
  (st.1 ++ r.1, r.2)

/-- Feeding a whole sequence of chunks from the empty initial buffer. -/
def feed_all (chunks : List (List Nat)) : List (List Nat) × List Nat :=
  chunks.foldl feed_chunk ([], [])

/-- Feeding chunk by chunk equals processing the concatenation once. -/
theorem feed_all_eq (chunks : List (List Nat)) :
    feed_all chunks = process_buffer chunks.flatten := by
  induction chunks using List.reverseRecOn with
  | nil => rfl
  | append_singleton chunks c ih =>
    unfold feed_all at ih ⊢
    rw [List.foldl_append, ih]
    show feed_chunk (process_buffer chunks.flatten) c = _
    unfold feed_chunk
    rw [List.flatten_append]
    simp only [List.flatten_cons, List.flatten_nil, List.append_nil]
    exact (process_buffer_append c chunks.flatten).symm

/-- C5: the frame reassembler is chunk-boundary independent.  Any two
ways of cutting the same byte stream into chunks produce the same
ordered sequence of extracted frames (and the same leftover buffer). -/
theorem c5_chunk_boundary_independence (chunks1 chunks2 : List (List Nat))
    (h : chunks1.flatten = chunks2.flatten) :
    feed_all chunks1 = feed_all chunks2 := by
  rw [feed_all_eq, feed_all_eq, h]

/-- Witness for C5: the set-power frame fed in three ragged chunks and
as one chunk gives the same result. -/
theorem c5_chunk_boundary_independence_witness :
    ([[0xA0], [0x04, 0xFF], [0x76, 0x19, 0xCE]] : List (List Nat)).flatten =
        ([[0xA0, 0x04, 0xFF, 0x76, 0x19, 0xCE]] : List (List Nat)).flatten ∧
      feed_all [[0xA0], [0x04, 0xFF], [0x76, 0x19, 0xCE]] =
        feed_all [[0xA0, 0x04, 0xFF, 0x76, 0x19, 0xCE]] :=
  ⟨by decide,
    c5_chunk_boundary_independence [[0xA0], [0x04, 0xFF], [0x76, 0x19, 0xCE]]
      [[0xA0, 0x04, 0xFF, 0x76, 0x19, 0xCE]] (by decide)⟩

/-- Dropping garbage: while at least 5 bytes remain, leading bytes that
are not the 0xA0 marker are discarded one by one. -/
theorem process_buffer_drop_garbage (rest : List Nat)
    (h5 : 5 ≤ rest.length) :
    ∀ garbage : List Nat, (∀ g ∈ garbage, g ≠ 0xA0) →
      process_buffer (garbage ++ rest) = process_buffer rest := by
  intro garbage
  induction garbage with
  | nil =>
    intro _
    rw [List.nil_append]
  | cons g t ih =>
    intro hg
    rw [process_buffer_eq]
    rw [if_neg (by rw [List.cons_append, List.length_cons,
      List.length_append]; omega)]
    rw [if_pos (by
      rw [List.cons_append]
      show g ≠ 0xA0
      exact hg g (List.mem_cons_self g t))]
    rw [List.cons_append]
    show process_buffer (t ++ rest) = _
    exact ih fun x hx => hg x (List.mem_cons_of_mem g hx)

/-- A buffer holding exactly one complete well-formed frame is sliced
into exactly that frame, leaving an empty buffer. -/
theorem process_buffer_exact_frame (L id cmd ck : Nat) (data : List Nat)
    (hL : L = data.length + 3) :
    process_buffer (([0xA0, L, id, cmd] ++ data) ++ [ck]) =
      ([([0xA0, L, id, cmd] ++ data) ++ [ck]], []) := by
  have hcons : (([0xA0, L, id, cmd] ++ data) ++ [ck]) =
      0xA0 :: L :: id :: cmd :: (data ++ [ck]) := by simp
  have hlen : (([0xA0, L, id, cmd] ++ data) ++ [ck]).length =
      data.length + 5 := by simp
  rw [process_buffer_eq]
  rw [if_neg (by rw [hlen]; omega)]
  rw [if_neg (by rw [hcons]; simp)]
  simp only
  have hgetD : (([0xA0, L, id, cmd] ++ data) ++ [ck]).getD 1 0 = L := by
    rw [hcons]
    rfl
  rw [hgetD, if_neg (by rw [hlen]; omega)]
  have htake : (([0xA0, L, id, cmd] ++ data) ++ [ck]).take (L + 2) =
      ([0xA0, L, id, cmd] ++ data) ++ [ck] :=
    List.take_of_length_le (by rw [hlen]; omega)
  have hdrop : (([0xA0, L, id, cmd] ++ data) ++ [ck]).drop (L + 2) = [] :=
    List.drop_eq_nil_of_le (by rw [hlen]; omega)
  rw [htake, hdrop]
  rfl

/-- Counterexample for C7 as stated: a single garbage byte that happens
to equal the header marker 0xA0, followed by a complete well-formed
frame (the set-power frame, which parse_response accepts), makes the
reassembler read the garbage byte as a header and the frame's first byte
0xA0 = 160 as a length, so it waits for 162 bytes and extracts no frame
at all instead of exactly one. -/
theorem c7_counterexample :
    parse_response [0xA0, 0x04, 0xFF, 0x76, 0x19, 0xCE] =
        .ok ⟨0xFF, 0x76, [0x19]⟩ ∧
      (process_buffer ([0xA0] ++ [0xA0, 0x04, 0xFF, 0x76, 0x19, 0xCE])).1 =
        [] := by
  constructor
  · rfl
  · rfl

/-- C7 amended: for every byte stream of N garbage bytes none of which
equals the header marker 0xA0, followed by one well-formed frame,
processing the stream extracts exactly the one frame (the garbage is
dropped and never decoded) and the frame decodes to its original
content. -/
theorem c7_resynchronization (garbage : List Nat) (id cmd : Nat)
    (data frame : List Nat)
    (hg : ∀ g ∈ garbage, g ≠ 0xA0)
    (h1 : id ≤ 255) (h2 : cmd ≤ 255) (h3 : data.length ≤ 252)
    (h4 : ∀ b ∈ data, b ≤ 255)
    (hframe : create_frame id cmd data = .ok frame) :
    process_buffer (garbage ++ frame) = ([frame], []) ∧
      parse_response frame = .ok ⟨id, cmd, data⟩ := by
  obtain ⟨frame0, henc, hdec⟩ := create_frame_roundtrip id cmd data h1 h2 h3 h4
  have hfr : frame = frame0 := by
    rw [hframe] at henc
    exact Except.ok.inj henc
  subst hfr
  have hshape : frame =
      ([0xA0, data.length + 3, id, cmd] ++ data) ++
        [calculate_checksum ([0xA0, data.length + 3, id, cmd] ++ data)] := by
    have hall : (data.all fun b => b ≤ 255) = true := by
      rw [List.all_eq_true]
      intro b hb
      simpa using h4 b hb
    have hguard : (255 < data.length + 3 || 255 < id || 255 < cmd ||
        !(data.all fun b => b ≤ 255)) = false := by
      simp [hall]
      omega
    have : create_frame id cmd data = .ok
        (([0xA0, data.length + 3, id, cmd] ++ data) ++
          [calculate_checksum ([0xA0, data.length + 3, id, cmd] ++ data)]) := by
      simp only [create_frame, hguard, Bool.false_eq_true, if_false]
    rw [hframe] at this
    exact Except.ok.inj this
  have hlen5 : 5 ≤ frame.length := by
    rw [hshape]
    simp
  rw [process_buffer_drop_garbage frame hlen5 garbage hg]
  refine ⟨?_, hdec⟩
  rw [hshape]
  exact process_buffer_exact_frame _ id cmd _ data rfl

/-- Witness for C7 amended: three non-marker garbage bytes before the
set-power frame yield exactly that one frame. -/
theorem c7_resynchronization_witness :
    process_buffer ([0x01, 0x02, 0x03] ++ [0xA0, 0x04, 0xFF, 0x76, 0x19, 0xCE]) =
        ([[0xA0, 0x04, 0xFF, 0x76, 0x19, 0xCE]], []) ∧
      parse_response [0xA0, 0x04, 0xFF, 0x76, 0x19, 0xCE] =
        .ok ⟨0xFF, 0x76, [0x19]⟩ :=
  c7_resynchronization [0x01, 0x02, 0x03] 0xFF 0x76 [0x19]
    [0xA0, 0x04, 0xFF, 0x76, 0x19, 0xCE] (by decide) (by decide) (by decide)
    (by decide) (by decide) (by rfl)

/-! ## Data models (src/models/data_models.py) -/

/-- Embeds the SensorDirection enum, whose only members are UNKNOWN, IN
and OUT. -/
inductive SensorDirection
  | UNKNOWN
  | IN
  | OUT
deriving Repr, DecidableEq

/-- Embeds Python attribute lookup on the SensorDirection enum class:
looking up a name that is not a member raises AttributeError, modelled
by none. -/
def SensorDirection.fromName : String → Option SensorDirection
  | "UNKNOWN" => some .UNKNOWN
  | "IN" => some .IN
  | "OUT" => some .OUT
  | _ => none

/-- Embeds the EPCReadEvent dataclass; read_time is in seconds. -/
structure EPCReadEvent where
  epc : String
  rssi : Int
  read_time : ℚ
  antenna : Nat
  frequency : String := ""
  pc : String := ""
deriving Repr, DecidableEq

/-- Embeds the RXInventoryTag dataclass. -/
structure RXInventoryTag where
  str_pc : String := ""
  str_epc : String := ""
  str_rssi : String := ""
  str_freq : String := ""
  bt_ant_id : Nat := 0
  cmd : Nat := 0
deriving Repr, DecidableEq

/-- Embeds the SensorState dataclass (timestamps in seconds). -/
structure SensorState where
  s1_activated_time : Option ℚ := none
  s2_activated_time : Option ℚ := none
  s1_was_active : Bool := false
  s2_was_active : Bool := false
  last_direction : SensorDirection := .UNKNOWN
deriving Repr, DecidableEq

/-- Embeds the both_sensors_activated property. -/
def SensorState.both_sensors_activated (st : SensorState) : Bool :=
  st.s1_activated_time.isSome && st.s2_activated_time.isSome

/-- Embeds SensorState.get_direction: OUT if sensor 1 activated strictly
earlier than sensor 2, IN otherwise; UNKNOWN when either is unset. -/
def SensorState.get_direction (st : SensorState) : SensorDirection :=
  match st.s1_activated_time, st.s2_activated_time with
  | some t1, some t2 => if t1 < t2 then .OUT else .IN
  | _, _ => .UNKNOWN

/-- Embeds SensorState.get_time_difference_ms: absolute difference of
the two activation times in milliseconds, 0 when either is unset. -/
def SensorState.get_time_difference_ms (st : SensorState) : ℚ :=
  match st.s1_activated_time, st.s2_activated_time with
  | some t1, some t2 => |t2 - t1| * 1000
  | _, _ => 0

/-- Embeds SensorState.get_trigger_time; the now argument stands in for
datetime.now() in the branch where not both sensors are set. -/
def SensorState.get_trigger_time (st : SensorState) (now : ℚ) : ℚ :=
  match st.s1_activated_time, st.s2_activated_time with
  | some t1, some t2 => max t1 t2
  | _, _ => now

/-- Embeds SensorState.reset: clears both timestamps and sets the last
direction back to UNKNOWN. -/
def SensorState.reset (st : SensorState) : SensorState :=
  { st with
    s1_activated_time := none
    s2_activated_time := none
    last_direction := .UNKNOWN }

/-! ## Reader model (src/models/reader_model.py) -/

/-- ReaderModel.MAX_TOTAL_TAGS. -/
def MAX_TOTAL_TAGS : Nat := 10000

/-- The mutable fields of a ReaderModel instance.  The EPC dictionary is
a Python dict modelled as an insertion-ordered association list. -/
structure ReaderModelState where
  epc_dictionary : List (String × Nat)
  epc_read_history : List EPCReadEvent
  sensor_state : SensorState
  total_tag_count : Nat
  detected_direction : SensorDirection
  last_s1_activation : Option ℚ
  last_s2_activation : Option ℚ
  sensor_activated_time : Option ℚ
deriving Repr, DecidableEq

/-- Embeds ReaderModel.__init__.  The constructor initialises the
collections and counters and then evaluates SensorDirection.X; X is not
a member of the enum, so construction raises AttributeError (the error
case). -/
def ReaderModel_init : Except String ReaderModelState :=
  match SensorDirection.fromName "X" with
  | some d => .ok {
      epc_dictionary := []
      epc_read_history := []
      sensor_state := {}
      total_tag_count := 0
      detected_direction := d
      last_s1_activation := none
      last_s2_activation := none
      sensor_activated_time := none }
  | none => .error "AttributeError: SensorDirection has no member X"

/-- Embeds ReaderModel.clear_data.  It clears the dictionary and the
history and zeroes the total count, then evaluates SensorDirection.X,
which raises AttributeError; the mutations made before the raise persist
in the returned state and the detected direction keeps its old value. -/
def clear_data (s : ReaderModelState) : ReaderModelState × Option String :=
  let s1 := { s with
    epc_dictionary := []
    epc_read_history := []
    total_tag_count := 0 }
  match SensorDirection.fromName "X" with
  | some d => ({ s1 with detected_direction := d }, none)
  | none => (s1, some "AttributeError: SensorDirection has no member X")

/-- Embeds the Python expression (tag.str_epc in dict) on the modelled
dictionary. -/
def dict_contains (d : List (String × Nat)) (k : String) : Bool :=
  d.any fun p => p.1 == k

/-- Embeds dict[key] += 1 on an existing key: the value is updated in
place and insertion order is unchanged. -/
def dict_incr (d : List (String × Nat)) (k : String) : List (String × Nat) :=
  d.map fun p => if p.1 == k then (p.1, p.2 + 1) else p

/-- Embeds int(tag.str_rssi) if tag.str_rssi else 0: the empty string
gives 0 and a non-numeric string raises ValueError. -/
def parse_rssi (s : String) : Except String Int :=
  if s = "" then .ok 0
  else match s.toInt? with
    | some n => .ok n
    | none => .error "ValueError: invalid literal for int"

/-- The part of ReaderModel.process_tag after the ceiling check: compute
is_new, update the dictionary, then build the history event (whose rssi
conversion can raise, in which case the dictionary update persists but
the history is left unchanged) and append it. -/
def process_tag_record (s : ReaderModelState) (tag : RXInventoryTag)
    (now : ℚ) : ReaderModelState × Except String Bool :=
  let is_new := !(dict_contains s.epc_dictionary tag.str_epc)
  let d := if is_new then s.epc_dictionary ++ [(tag.str_epc, 1)]
    else dict_incr s.epc_dictionary tag.str_epc
  let s2 := { s with epc_dictionary := d }
  match parse_rssi tag.str_rssi with
  | .error e => (s2, .error e)
  | .ok r =>
    ({ s2 with epc_read_history := s2.epc_read_history ++
        [{ epc := tag.str_epc
           rssi := r
           read_time := now
           antenna := tag.bt_ant_id
           frequency := tag.str_freq
           pc := tag.str_pc }] }, .ok is_new)

/-- Embeds ReaderModel.process_tag, with now standing in for
datetime.now().  Empty and sentinel EPCs are rejected with no state
change; otherwise the total count is incremented and, when it reaches
MAX_TOTAL_TAGS, clear_data runs first (and its AttributeError, when
raised, aborts the call with the cleared state kept). -/
def process_tag (s : ReaderModelState) (tag : RXInventoryTag) (now : ℚ) :
    ReaderModelState × Except String Bool :=
  if tag.str_epc = "" ∨ tag.str_epc = "000000" ∨ tag.str_epc = "000001" then
    (s, .ok false)
  else
    let s1 := { s with total_tag_count := s.total_tag_count + 1 }
    if MAX_TOTAL_TAGS ≤ s1.total_tag_count then
      match clear_data s1 with
      | (s2, some e) => (s2, .error e)
      | (s2, none) => process_tag_record s2 tag now
    else
      process_tag_record s1 tag now

/-- Embeds the epc_count property: the size of the EPC dictionary. -/
def epc_count (s : ReaderModelState) : Nat := s.epc_dictionary.length

/-- Embeds ReaderModel.handle_sensor_activation.  The initialisation
direction = SensorDirection.X runs before any state is touched and X is
not an enum member, so every call raises AttributeError with the state
unchanged; the remainder of the body (dead code) is still modelled
faithfully under the member lookup. -/
def handle_sensor_activation (s : ReaderModelState) (is_sensor1 : Bool)
    (activation_time : ℚ) : ReaderModelState × Except String Bool :=
  match SensorDirection.fromName "X" with
  | none => (s, .error "AttributeError: SensorDirection has no member X")
  | some _ =>
    let st := if is_sensor1 then
        { s.sensor_state with s1_activated_time := some activation_time }
      else
        { s.sensor_state with s2_activated_time := some activation_time }
    if st.both_sensors_activated then
      let direction := st.get_direction
      let trigger_time := st.get_trigger_time activation_time
      ({ s with
          sensor_state := ({ st with last_direction := direction }).reset
          detected_direction := direction
          last_s1_activation := st.s1_activated_time
          last_s2_activation := st.s2_activated_time
          sensor_activated_time := some trigger_time }, .ok true)
    else
      ({ s with sensor_state := st }, .ok false)

/-- C10: the default direction value SensorDirection.X assigned by
ReaderModel.__init__, clear_data and handle_sensor_activation is NOT a
member of the SensorDirection enumeration (which defines only UNKNOWN,
IN and OUT), so far from never raising, construction fails with
AttributeError, clear_data always raises after clearing, and every
sensor-activation call raises. -/
theorem c10_sensor_direction_x_not_a_member :
    SensorDirection.fromName "X" = none ∧
      ReaderModel_init = .error "AttributeError: SensorDirection has no member X" ∧
      (∀ s : ReaderModelState,
        (clear_data s).2 = some "AttributeError: SensorDirection has no member X") ∧
      (∀ (s : ReaderModelState) (b : Bool) (t : ℚ),
        (handle_sensor_activation s b t).2 =
          .error "AttributeError: SensorDirection has no member X") :=
  ⟨rfl, rfl, fun _ => rfl, fun _ _ _ => rfl⟩

/-- C3 (against the code as written): every call to
handle_sensor_activation evaluates the initialiser SensorDirection.X
before recording anything, which raises AttributeError, so no sensor
activation is ever stored and no direction (OUT, IN, or any delta) is
ever resolved. -/
theorem c3_sensor_activation_always_raises (s : ReaderModelState)
    (is_sensor1 : Bool) (t : ℚ) :
    handle_sensor_activation s is_sensor1 t =
      (s, .error "AttributeError: SensorDirection has no member X") :=
  rfl

/-- C8: a tag read whose EPC is empty or one of the sentinels 000000 and
000001 is rejected: process_tag returns false and the whole state (in
particular the dictionary, the total count and the history) is
unchanged. -/
theorem c8_sentinel_epc_rejected (s : ReaderModelState)
    (tag : RXInventoryTag) (now : ℚ)
    (h : tag.str_epc = "" ∨ tag.str_epc = "000000" ∨
      tag.str_epc = "000001") :
    process_tag s tag now = (s, .ok false) := by
  unfold process_tag
  rw [if_pos h]

/-- A sample reader-model state with one recorded read, used by
witnesses. -/
def sample_model_state : ReaderModelState where
  epc_dictionary := [("E200AA", 1)]
  epc_read_history := [{ epc := "E200AA"
                         rssi := 200
                         read_time := 0
                         antenna := 1 }]
  sensor_state := {}
  total_tag_count := 1
  detected_direction := .UNKNOWN
  last_s1_activation := none
  last_s2_activation := none
  sensor_activated_time := none

/-- Witness for C8: recording the sentinel EPC 000000 changes nothing
on the sample state. -/
theorem c8_sentinel_epc_rejected_witness :
    process_tag sample_model_state { str_epc := "000000" } 0 =
      (sample_model_state, .ok false) :=
  c8_sentinel_epc_rejected sample_model_state { str_epc := "000000" } 0
    (Or.inr (Or.inl rfl))

/-- Inventory store invariant: the total read count equals the length of
the read history and the dictionary keys are pairwise distinct, so the
size of the dictionary is exactly the number of unique EPCs. -/
def ReaderInv (s : ReaderModelState) : Prop :=
  s.total_tag_count = s.epc_read_history.length ∧
    (s.epc_dictionary.map Prod.fst).Nodup

/-- dict_incr only rewrites values, never keys. -/
theorem dict_incr_keys (d : List (String × Nat)) (k : String) :
    (dict_incr d k).map Prod.fst = d.map Prod.fst := by
  induction d with
  | nil => rfl
  | cons p t ih =>
    simp only [dict_incr, List.map_cons] at ih ⊢
    rw [ih]
    by_cases hh : p.1 == k <;> simp [hh]

/-- A key that dict_contains does not find is not among the keys. -/
theorem not_mem_keys_of_contains_false (d : List (String × Nat))
    (k : String) (h : dict_contains d k = false) :
    k ∉ d.map Prod.fst := by
  intro hmem
  obtain ⟨p, hp, hpk⟩ := List.mem_map.mp hmem
  unfold dict_contains at h
  rw [List.any_eq_false] at h
  have h5 := h p hp
  rw [hpk] at h5
  simp at h5

/-- The state left by clear_data: collections emptied, count zeroed, the
rest untouched (the direction assignment raises before completing). -/
theorem clear_data_state (s : ReaderModelState) :
    (clear_data s).1 = { s with
      epc_dictionary := []
      epc_read_history := []
      total_tag_count := 0 } := rfl

/-- On the ceiling path, process_tag clears the state and propagates the
AttributeError raised inside clear_data. -/
theorem process_tag_ceiling (s : ReaderModelState) (tag : RXInventoryTag)
    (now : ℚ)
    (hsent : ¬(tag.str_epc = "" ∨ tag.str_epc = "000000" ∨
      tag.str_epc = "000001"))
    (hceil : MAX_TOTAL_TAGS ≤ s.total_tag_count + 1) :
    process_tag s tag now = ({ s with
        epc_dictionary := []
        epc_read_history := []
        total_tag_count := 0 },
      .error "AttributeError: SensorDirection has no member X") := by
  unfold process_tag
  rw [if_neg hsent]
  simp only
  rw [if_pos hceil]
  rfl

/-- process_tag_record preserves the invariant, given that the caller
already incremented the total count and the rssi field converts. -/
theorem process_tag_record_inv (s : ReaderModelState)
    (tag : RXInventoryTag) (now : ℚ)
    (h1 : s.total_tag_count = s.epc_read_history.length + 1)
    (h2 : (s.epc_dictionary.map Prod.fst).Nodup)
    (r : Int) (hr : parse_rssi tag.str_rssi = .ok r) :
    ReaderInv (process_tag_record s tag now).1 := by
  unfold process_tag_record
  rw [hr]
  simp only
  constructor
  · simpa using h1
  · simp only
    by_cases hc : dict_contains s.epc_dictionary tag.str_epc
    · rw [if_neg (by simp [hc])]
      rw [dict_incr_keys]
      exact h2
    · rw [if_pos (by simp [hc])]
      have hnm := not_mem_keys_of_contains_false s.epc_dictionary
        tag.str_epc (by simpa using hc)
      rw [List.map_append]
      simp only [List.map_cons, List.map_nil]
      rw [List.nodup_append_comm, List.singleton_append, List.nodup_cons]
      exact ⟨hnm, h2⟩

/-- C2: the invariant holds at every point between resets.  process_tag
preserves it on every path, including the branch where the 10,000-read
ceiling reset fires inside it (the reset clears dictionary, history and
total together, and the AttributeError it then raises aborts the call
with the cleared state, on which the counts are equal again); clear_data
preserves it as well; and under the invariant the unique-EPC count
(epc_count, the size of the map) is exactly the number of distinct
EPCs. -/
theorem c2_inventory_invariant (s : ReaderModelState)
    (tag : RXInventoryTag) (now : ℚ) (hs : ReaderInv s)
    (hr : tag.str_rssi = "" ∨ (tag.str_rssi.toInt?).isSome = true) :
    ReaderInv (process_tag s tag now).1 ∧ ReaderInv (clear_data s).1 ∧
      epc_count s = (s.epc_dictionary.map Prod.fst).dedup.length := by
  have hok : ∃ r : Int, parse_rssi tag.str_rssi = .ok r := by
    unfold parse_rssi
    by_cases he : tag.str_rssi = ""
    · exact ⟨0, by rw [if_pos he]⟩
    · rcases hr with hr | hr
      · exact absurd hr he
      · obtain ⟨n, hn⟩ := Option.isSome_iff_exists.mp hr
        exact ⟨n, by rw [if_neg he, hn]⟩
  obtain ⟨r, hrok⟩ := hok
  refine ⟨?_, ?_, ?_⟩
  · by_cases hsent : tag.str_epc = "" ∨ tag.str_epc = "000000" ∨
        tag.str_epc = "000001"
    · unfold process_tag
      rw [if_pos hsent]
      exact hs
    · by_cases hceil : MAX_TOTAL_TAGS ≤ s.total_tag_count + 1
      · rw [process_tag_ceiling s tag now hsent hceil]
        exact ⟨rfl, List.nodup_nil⟩
      · unfold process_tag
        rw [if_neg hsent]
        simp only
        rw [if_neg hceil]
        exact process_tag_record_inv _ tag now (by simp [hs.1]) hs.2 r hrok
  · rw [clear_data_state]
    exact ⟨rfl, List.nodup_nil⟩
  · rw [epc_count, hs.2.dedup, List.length_map]

/-- Witness for C2 on the sample state and a fresh tag with an empty
rssi string. -/
theorem c2_inventory_invariant_witness :
    ReaderInv (process_tag sample_model_state { str_epc := "B100" } 1).1 ∧
      ReaderInv (clear_data sample_model_state).1 ∧
      epc_count sample_model_state =
        (sample_model_state.epc_dictionary.map Prod.fst).dedup.length :=
  c2_inventory_invariant sample_model_state { str_epc := "B100" } 1
    (by constructor <;> decide) (Or.inl rfl)

/-! ## Power command validation (ReaderProtocol.build_set_power and
ReaderController.set_power) -/

/-- Embeds ReaderProtocol.build_set_power: validates the 0-33 dBm range
first (raising ValueError, the error case, before any frame bytes are
produced) and otherwise frames command 0x76 with the single power
byte. -/
def build_set_power (reader_id : Nat) (power_dbm : Int) :
    Except String (List Nat) :=
  if ¬(0 ≤ power_dbm ∧ power_dbm ≤ 33) then
    .error ("Power must be 0-33 dBm, got " ++ toString power_dbm)
  else
    create_frame reader_id 0x76 [power_dbm.toNat]

/-- Embeds ReaderController.set_power: the slot validates the range
itself (logging and returning, so nothing is sent) before calling
build_set_power, and catches ValueError (also sending nothing).  The
result is the frame handed to send_command, or none when the request
was rejected. -/
def controller_set_power (power_dbm : Int) : Option (List Nat) :=
  if ¬(0 ≤ power_dbm ∧ power_dbm ≤ 33) then none
  else
    match build_set_power 0xFF power_dbm with
    | .ok cmd => some cmd
    | .error _ => none

/-- C9: every power value outside 0-33 dBm is rejected synchronously
with the descriptive ValueError before any frame bytes are produced,
and the controller sends nothing; every value inside 0-33 builds the
0x76 command frame successfully, and that exact frame is what the
controller sends. -/
theorem c9_power_range_validation (p : Int) :
    ((p < 0 ∨ 33 < p) →
      build_set_power 0xFF p =
          .error ("Power must be 0-33 dBm, got " ++ toString p) ∧
        controller_set_power p = none) ∧
    (0 ≤ p → p ≤ 33 →
      ∃ frame, build_set_power 0xFF p = .ok frame ∧
        controller_set_power p = some frame) := by
  constructor
  · intro hout
    have hneg : ¬(0 ≤ p ∧ p ≤ 33) := by omega
    constructor
    · unfold build_set_power
      rw [if_pos hneg]
    · unfold controller_set_power
      rw [if_pos hneg]
  · intro h0 h33
    have hpos : (0 ≤ p ∧ p ≤ 33) := ⟨h0, h33⟩
    obtain ⟨frame, hf, hparse⟩ := create_frame_roundtrip 0xFF 0x76
      [p.toNat] (by omega) (by omega) (by simp)
      (by
        intro b hb
        simp only [List.mem_singleton] at hb
        omega)
    have hbsp : build_set_power 0xFF p = .ok frame := by
      unfold build_set_power
      rw [if_neg (not_not_intro hpos)]
      exact hf
    refine ⟨frame, hbsp, ?_⟩
    unfold controller_set_power
    rw [if_neg (not_not_intro hpos), hbsp]

/-- Witness for C9 at the out-of-range value 40 and the in-range value
25. -/
theorem c9_power_range_validation_witness :
    (build_set_power 0xFF 40 =
        .error ("Power must be 0-33 dBm, got " ++ toString (40 : Int)) ∧
      controller_set_power 40 = none) ∧
    (∃ frame, build_set_power 0xFF 25 = .ok frame ∧
      controller_set_power 25 = some frame) :=
  ⟨(c9_power_range_validation 40).1 (Or.inr (by decide)),
    (c9_power_range_validation 25).2 (by decide) (by decide)⟩

/-! ## Tag data parsing (ReaderProtocol.parse_tag_data) -/

/-- Uppercase hexadecimal digit for a value below 16. -/
def hexDigit (n : Nat) : Char :=
  if n < 10 then Char.ofNat (48 + n) else Char.ofNat (55 + n)

/-- Embeds the Python expression bytes.hex().upper(): two uppercase
hexadecimal digits per byte. -/
def bytes_hex_upper (bs : List Nat) : String :=
  String.mk (bs.foldr
    (fun b acc => hexDigit (b / 16 % 16) :: hexDigit (b % 16) :: acc) [])

/-- The tag frequency in MHz per the source formula: the FCC sub-band
902.0 + (code - 7) * 0.5 for channel codes at least 7, the ETSI sub-band
865.0 + code * 0.5 below. -/
def tag_frequency (freq_code : Nat) : ℚ :=
  if 7 ≤ freq_code then 902 + ((freq_code : ℚ) - 7) * (1/2)
  else 865 + (freq_code : ℚ) * (1/2)

/-- Embeds the Python format expression with two decimals, for the
nonnegative exact multiples of 1/100 produced by the frequency formula
(binary floats represent these half values exactly, so the printed
digits agree with the rational computation). -/
def format_two_decimals (q : ℚ) : String :=
  let n : Nat := (q * 100).num.toNat
  toString (n / 100) ++ "." ++
    (if n % 100 < 10 then "0" else "") ++ toString (n % 100)

/-- Result of ReaderProtocol.parse_tag_data. -/
structure TagData where
  pc : String
  epc : String
  rssi : Nat
  antenna : Nat
  frequency : String
deriving Repr, DecidableEq

/-- Embeds ReaderProtocol.parse_tag_data (its cmd argument is unused in
the source and omitted here): requires at least 4 bytes; byte 0 holds
the frequency channel code in its upper 6 bits and the antenna id minus
one in its lower 2 bits; bytes 1-2 are the PC; bytes 3..(n-2) are the
EPC; the last byte is the RSSI. -/
def parse_tag_data (data : List Nat) : Option TagData :=
  if data.length < 4 then none
  else
    let ant_byte := data.headD 0
    let freq_code := (ant_byte &&& 0xFF) >>> 2
    let ant_id := (ant_byte &&& 0x03) + 1
    let pc := bytes_hex_upper ((data.drop 1).take 2)
    let epc_length := data.length - 4
    let epc := bytes_hex_upper ((data.drop 3).take epc_length)
    let rssi := data.getLastD 0
    some { pc := pc
           epc := epc
           rssi := rssi
           antenna := ant_id
           frequency := format_two_decimals (tag_frequency freq_code) }

/-- C6: for every tag payload of at least 4 bytes (with byte values in
range), parse_tag_data derives the antenna id as (byte0 mod 4) + 1, the
frequency from the channel code byte0 / 4 as 902.0 + (code - 7) * 0.5
MHz when the code is at least 7 and 865.0 + code * 0.5 MHz otherwise
(formatted with two decimals), the PC from bytes 1-2, the EPC from
bytes 3..(n-2), and the RSSI from the last byte. -/
theorem c6_parse_tag_data_fields (data : List Nat) (h : 4 ≤ data.length)
    (hbytes : ∀ b ∈ data, b ≤ 255) :
    parse_tag_data data = some
      { pc := bytes_hex_upper ((data.drop 1).take 2)
        epc := bytes_hex_upper ((data.drop 3).take (data.length - 4))
        rssi := data.getLastD 0
        antenna := data.headD 0 % 4 + 1
        frequency := format_two_decimals
          (if 7 ≤ data.headD 0 / 4 then
            902 + ((data.headD 0 / 4 : Nat) : ℚ) * (1/2) - 7 * (1/2)
          else 865 + ((data.headD 0 / 4 : Nat) : ℚ) * (1/2)) } := by
  have hne : data ≠ [] := by
    intro hnil
    rw [hnil] at h
    simp at h
  have hb : data.headD 0 ≤ 255 := by
    cases data with
    | nil => exact absurd rfl hne
    | cons a t => exact hbytes a (List.mem_cons_self a t)
  have hand3 : ∀ m : Nat, m &&& 3 = m % 4 := fun m => by
    simpa using Nat.and_pow_two_sub_one_eq_mod m 2
  have hand255 : ∀ m : Nat, m ≤ 255 → m &&& 255 = m := fun m hm => by
    have h8 := Nat.and_pow_two_sub_one_eq_mod m 8
    simp at h8
    rw [h8]
    omega
  have hant : data.headD 0 &&& 0x03 = data.headD 0 % 4 := hand3 _
  have hfreq : (data.headD 0 &&& 0xFF) >>> 2 = data.headD 0 / 4 := by
    rw [hand255 _ hb, Nat.shiftRight_eq_div_pow]
  unfold parse_tag_data
  rw [if_neg (by omega)]
  simp only
  rw [hant, hfreq, tag_frequency]
  by_cases h7 : 7 ≤ data.headD 0 / 4
  · rw [if_pos h7, if_pos h7]
    congr 3
    ring
  · rw [if_neg h7, if_neg h7]

/-- Reduction of format_two_decimals to natural-number arithmetic, for
arguments that are 1/100-multiples given by a natural numerator. -/
theorem format_two_decimals_eq (q : ℚ) (n : Nat) (h : q * 100 = (n : ℚ)) :
    format_two_decimals q = toString (n / 100) ++ "." ++
      (if n % 100 < 10 then "0" else "") ++ toString (n % 100) := by
  unfold format_two_decimals
  rw [h, Rat.num_natCast, Int.toNat_natCast]

/-- Witness for C6 at the spec's end-to-end scenario: antenna byte
0b00000101 (channel code 1, antenna 2), PC 0x3000, EPC 0xE200, RSSI
0xC8: parsed antenna 2, frequency 865.50, rssi 200. -/
theorem c6_parse_tag_data_fields_witness :
    parse_tag_data [0x05, 0x30, 0x00, 0xE2, 0x00, 0xC8] = some
      { pc := "3000"
        epc := "E200"
        rssi := 200
        antenna := 2
        frequency := "865.50" } := by
  have hgen := c6_parse_tag_data_fields [0x05, 0x30, 0x00, 0xE2, 0x00, 0xC8]
    (by decide) (by decide)
  rw [hgen]
  rw [format_two_decimals_eq _ 86550 (by norm_num)]
  decide

/-! ## Confidence scoring (ReaderModel._to_confidence and
ReaderModel._calculate_linear_regression_slope) -/

/-- ReaderModel.ALPHA. -/
def ALPHA : ℚ := 1/2

/-- ReaderModel.SLOPE_MIN_THRESHOLD (0.5). -/
def SLOPE_MIN_THRESHOLD : ℚ := 1/2

/-- ReaderModel.SLOPE_MAX_THRESHOLD (15.0). -/
def SLOPE_MAX_THRESHOLD : ℚ := 15

/-- ReaderModel.VARIANCE_MIN_THRESHOLD (2.0). -/
def VARIANCE_MIN_THRESHOLD : ℚ := 2

/-- ReaderModel.VARIANCE_MAX_THRESHOLD (40.0). -/
def VARIANCE_MAX_THRESHOLD : ℚ := 40

/-- The source's max(0.0, min(1.0, x)) clamping. -/
def clamp01 (x : ℚ) : ℚ := max 0 (min 1 x)

/-- Embeds ReaderModel._to_confidence on rationals: the signed slope and
the variance are each scaled into their threshold band, clamped to
[0, 1], mixed with weight ALPHA, and scaled to [0, 100]. -/
def to_confidence (slope variance : ℚ) : ℚ :=
  let s_slope := clamp01 ((slope - SLOPE_MIN_THRESHOLD) /
    (SLOPE_MAX_THRESHOLD - SLOPE_MIN_THRESHOLD))
  let s_variance := clamp01 ((variance - VARIANCE_MIN_THRESHOLD) /
    (VARIANCE_MAX_THRESHOLD - VARIANCE_MIN_THRESHOLD))
  (s_slope * (1 - ALPHA) + s_variance * ALPHA) * 100

/-- Embeds ReaderModel._calculate_linear_regression_slope on events
given as (read_time in seconds, rssi) pairs: ordinary least squares of
rssi against seconds elapsed since the first event; 0 when fewer than
two events or the denominator vanishes. -/
def linear_regression_slope (events : List (ℚ × ℚ)) : ℚ :=
  if events.length < 2 then 0
  else
    match events with
    | [] => 0
    | e0 :: _ =>
      let x := events.map fun e => e.1 - e0.1
      let y := events.map fun e => e.2
      let n : ℚ := events.length
      let sum_x := x.sum
      let sum_y := y.sum
      let sum_xy := ((x.zip y).map fun p => p.1 * p.2).sum
      let sum_xx := (x.map fun xi => xi * xi).sum
      let numerator := n * sum_xy - sum_x * sum_y
      let denominator := n * sum_xx - sum_x * sum_x
      if denominator = 0 then 0 else numerator / denominator

theorem clamp01_of_nonpos (x : ℚ) (h : x ≤ 0) : clamp01 x = 0 := by
  unfold clamp01
  rw [max_eq_left]
  exact le_trans (min_le_right 1 x) h

theorem clamp01_of_mem (x : ℚ) (h0 : 0 ≤ x) (h1 : x ≤ 1) :
    clamp01 x = x := by
  unfold clamp01
  rw [min_eq_right h1, max_eq_right h0]

theorem clamp01_of_one_le (x : ℚ) (h : 1 ≤ x) : clamp01 x = 1 := by
  unfold clamp01
  rw [min_eq_left h, max_eq_right (by norm_num)]

/-- Counterexample for C4 as stated: the regression slope of a
decreasing RSSI series is negative (-5 for -40,-45,-50 over three
seconds, -10 for the steeper -40,-50,-60), both magnitudes lie inside
[0.5, 15.0], and the variance 2.0 meets V_min, yet the combined
confidence is 0 for both (not strictly increasing in the magnitude),
and even for magnitude 20 outside the band the confidence is 0, not the
claimed saturation at 100: the code clamps the SIGNED slope, so every
negative slope contributes nothing. -/
theorem c4_counterexample :
    linear_regression_slope [(0, -40), (1, -45), (2, -50)] = -5 ∧
      linear_regression_slope [(0, -40), (1, -50), (2, -60)] = -10 ∧
      ((1 : ℚ)/2 ≤ 5 ∧ (5 : ℚ) ≤ 15 ∧ (1 : ℚ)/2 ≤ 10 ∧ (10 : ℚ) ≤ 15) ∧
      to_confidence (-5) 2 = 0 ∧ to_confidence (-10) 2 = 0 ∧
      to_confidence (-20) 2 = 0 := by
  have hconf : ∀ s : ℚ, s ≤ 1/2 → to_confidence s 2 = 0 := by
    intro s hs
    simp only [to_confidence, SLOPE_MIN_THRESHOLD, SLOPE_MAX_THRESHOLD,
      VARIANCE_MIN_THRESHOLD, VARIANCE_MAX_THRESHOLD, ALPHA]
    rw [clamp01_of_nonpos ((s - 1/2) / (15 - 1/2))
      (div_nonpos_of_nonpos_of_nonneg (by linarith) (by norm_num))]
    rw [clamp01_of_nonpos (((2 : ℚ) - 2) / (40 - 2))
      (div_nonpos_of_nonpos_of_nonneg (by norm_num) (by norm_num))]
    norm_num
  refine ⟨?_, ?_, by norm_num, hconf (-5) (by norm_num),
    hconf (-10) (by norm_num), hconf (-20) (by norm_num)⟩
  · simp [linear_regression_slope, List.zip]
    norm_num
  · simp [linear_regression_slope, List.zip]
    norm_num

/-- C4 amended: the combined confidence is strictly increasing in the
SIGNED slope on [0.5, 15.0] for any fixed variance; every slope at or
below 0.5 — in particular every negative slope, which is what a
decreasing-RSSI tag produces, the three-second series (0,a),(1,b),(2,c)
having regression slope (c-a)/2 — gives the same confidence, determined
by the variance term alone, so for decreasing RSSI the confidence does
not depend on the slope magnitude at all; and the score saturates at
100 only when the slope reaches 15 and the variance also reaches 40. -/
theorem c4_confidence_slope_behaviour (v s1 s2 : ℚ) (hv : 2 ≤ v)
    (ha : 1/2 ≤ s1) (hab : s1 < s2) (hb : s2 ≤ 15) :
    to_confidence s1 v < to_confidence s2 v ∧
      (∀ s s' : ℚ, s ≤ 1/2 → s' ≤ 1/2 →
        to_confidence s v = to_confidence s' v) ∧
      (∀ a b c : ℚ,
        linear_regression_slope [(0, a), (1, b), (2, c)] = (c - a) / 2) ∧
      (40 ≤ v → ∀ s : ℚ, 15 ≤ s → to_confidence s v = 100) := by
  refine ⟨?_, ?_, ?_, ?_⟩
  · simp only [to_confidence, SLOPE_MIN_THRESHOLD, SLOPE_MAX_THRESHOLD,
      ALPHA]
    rw [clamp01_of_mem ((s1 - 1/2) / (15 - 1/2))
      (div_nonneg (by linarith) (by norm_num))
      (by rw [div_le_one (by norm_num)]; linarith)]
    rw [clamp01_of_mem ((s2 - 1/2) / (15 - 1/2))
      (div_nonneg (by linarith) (by norm_num))
      (by rw [div_le_one (by norm_num)]; linarith)]
    have hlt : (s1 - 1/2) / (15 - 1/2) < (s2 - 1/2) / (15 - 1/2) :=
      (div_lt_div_iff_of_pos_right (by norm_num)).mpr (by linarith)
    have hcl : (0 : ℚ) ≤ clamp01 ((v - VARIANCE_MIN_THRESHOLD) /
        (VARIANCE_MAX_THRESHOLD - VARIANCE_MIN_THRESHOLD)) :=
      le_max_left 0 _
    nlinarith [hlt]
  · intro s s' hs hs'
    simp only [to_confidence, SLOPE_MIN_THRESHOLD, SLOPE_MAX_THRESHOLD]
    rw [clamp01_of_nonpos ((s - 1/2) / (15 - 1/2))
      (div_nonpos_of_nonpos_of_nonneg (by linarith) (by norm_num))]
    rw [clamp01_of_nonpos ((s' - 1/2) / (15 - 1/2))
      (div_nonpos_of_nonpos_of_nonneg (by linarith) (by norm_num))]
  · intro a b c
    simp [linear_regression_slope, List.zip]
    norm_num
    ring
  · intro hv40 s hs
    simp only [to_confidence, SLOPE_MIN_THRESHOLD, SLOPE_MAX_THRESHOLD,
      VARIANCE_MIN_THRESHOLD, VARIANCE_MAX_THRESHOLD, ALPHA]
    rw [clamp01_of_one_le ((s - 1/2) / (15 - 1/2))
      (by rw [le_div_iff₀ (by norm_num)]; linarith)]
    rw [clamp01_of_one_le ((v - 2) / (40 - 2))
      (by rw [le_div_iff₀ (by norm_num)]; linarith)]
    norm_num

/-- Witness for C4 amended at variance 2 and slopes 1 < 2 inside the
band: the confidence strictly increases. -/
theorem c4_confidence_slope_behaviour_witness :
    to_confidence 1 2 < to_confidence 2 2 :=
  (c4_confidence_slope_behaviour 2 1 2 (by norm_num) (by norm_num)
    (by norm_num) (by norm_num)).1

end SecurityGate
